import Mathlib

/-!
Verification of the asset resolution and export pipeline of
`figma-export-assets` (`src/index.js`, class `FigmaExporter`).

The JavaScript code is shallowly embedded as pure Lean functions:

* the Figma document tree is a rose tree `Node`;
* network effects (the document fetch, the per-batch image-URL endpoint and
  the per-asset binary fetch) are passed in as explicit oracles, with
  `Except Nat` carrying a non-success HTTP status;
* the local filesystem is a flat association list of relative paths to byte
  lists (`Fs`); the recursive directory walk of `getAllFilesRecursively`
  returns exactly the stored relative paths in this model, and
  `path.normalize` is the identity on the derived asset names in scope;
* in-place mutation (`asset.url = ...`, `this.assets = ...`) becomes
  explicit state passing: a method body returns its result together with the
  updated value, and a thrown JS exception returns the state as it was at
  the throw site;
* `console.warn` / `console.error` output is collected in string lists.
-/

/-- A node of the Figma document tree: `{ id, name, children }`.
`page.children` and `frameRoot.children` are always arrays in the API
responses the code consumes; an absent `children` field is modelled as the
empty list (the only read that distinguishes them, `asset.children?.length`,
treats both as "no children"). -/
inductive Node where
  | mk (id : String) (name : String) (children : List Node)

def Node.id : Node → String
  | .mk i _ _ => i

def Node.name : Node → String
  | .mk _ n _ => n

def Node.children : Node → List Node
  | .mk _ _ c => c

/-- The `Asset` descriptor of `src/index.js` (`@typedef Asset`), extended
with the `format` field that the spec's AssetDescriptor data model declares;
the source never writes it, which is exactly what some theorems below are
about. `url = none` models an absent / `undefined` `url` property. -/
structure Asset where
  id : String
  name : String
  url : Option String := none
  format : Option String := none
  assetsPath : Option String := none
deriving Repr, DecidableEq

/-- The configuration record built in the constructor, defaults as in
`src/index.js` lines 62-70 (plus `skipExistingFiles`, default absent /
false). -/
structure Config where
  baseURL : String := "https://api.figma.com"
  format : String := "svg"
  scale : Nat := 1
  exportVariants : Bool := true
  batchSize : Nat := 100
  concurrencyLimit : Nat := 5
  skipExistingFiles : Bool := false
  figmaPersonalToken : String := ""
  fileId : String := ""
  page : String := ""
  frame : Option String := none
  assetsPath : String := ""
deriving Repr, DecidableEq

/-- Per-call configuration overrides (`configOverrides`); `none` means the
key is absent from the overrides object, so the spread
`{...this.config, ...configOverrides}` keeps the base value. -/
structure Overrides where
  baseURL : Option String := none
  format : Option String := none
  scale : Option Nat := none
  exportVariants : Option Bool := none
  batchSize : Option Nat := none
  concurrencyLimit : Option Nat := none
  skipExistingFiles : Option Bool := none
  figmaPersonalToken : Option String := none
  fileId : Option String := none
  page : Option String := none
  frame : Option (Option String) := none
  assetsPath : Option String := none
deriving Repr

/-- The shallow merge `{...this.config, ...configOverrides}` of
`createAssets` (`src/index.js` line 237): a key present in the overrides
shadows the base value, everything else is taken from the base. -/
def mergeConfig (base : Config) (o : Overrides) : Config where
  baseURL := o.baseURL.getD base.baseURL
  format := o.format.getD base.format
  scale := o.scale.getD base.scale
  exportVariants := o.exportVariants.getD base.exportVariants
  batchSize := o.batchSize.getD base.batchSize
  concurrencyLimit := o.concurrencyLimit.getD base.concurrencyLimit
  skipExistingFiles := o.skipExistingFiles.getD base.skipExistingFiles
  figmaPersonalToken := o.figmaPersonalToken.getD base.figmaPersonalToken
  fileId := o.fileId.getD base.fileId
  page := o.page.getD base.page
  frame := o.frame.getD base.frame
  assetsPath := o.assetsPath.getD base.assetsPath

/-- JS `String.prototype.split(",")` on the character list: cut at every
comma; the empty string yields `[""]`.  `cur` is the reversed current
segment. -/
def splitCommaAux : List Char → List Char → List (List Char)
  | [], cur => [cur.reverse]
  | c :: rest, cur =>
    if c = ',' then cur.reverse :: splitCommaAux rest []
    else splitCommaAux rest (c :: cur)

/-- JS `String.prototype.trim()`: strip leading and trailing whitespace. -/
def trimChars (l : List Char) : List Char :=
  ((l.dropWhile Char.isWhitespace).reverse.dropWhile Char.isWhitespace).reverse

/-- JS `Array.prototype.join(sep)`. -/
def joinSep (sep : List Char) : List (List Char) → List Char
  | [] => []
  | [x] => x
  | x :: y :: xs => x ++ sep ++ joinSep sep (y :: xs)

/-- The variant-name transform of `setAssets` (`src/index.js` lines
147-150): split the child's name on `","`, trim each part, rejoin with
`"--"`.  Implemented on the underlying character lists so that it mirrors
the JS `split`/`trim`/`join` chain step by step. -/
def variantKey (childName : String) : String :=
  ⟨joinSep ['-', '-'] ((splitCommaAux childName.data []).map trimChars)⟩

/-- One step of the `flatMap` in `setAssets` (`src/index.js` lines
136-156): a node with variants disabled or without children yields itself;
otherwise each child yields a descriptor named
`parentName/<variantKey childName>`. -/
def expandAsset (exportVariants : Bool) (asset : Node) : List Asset :=
  if !exportVariants || asset.children.isEmpty then
    [{ id := asset.id, name := asset.name }]
  else
    asset.children.map fun child =>
      { id := child.id, name := asset.name ++ "/" ++ variantKey child.name }

/-- The helper `findDuplicates("name", assets)` (`src/index.js` lines 158-171): a
filter over the list threading the `seen` set (modelled as a list of
names), keeping an element iff its name was not seen before and emitting
one `console.warn` line per dropped element.  Returns
(kept descriptors, warnings). -/
def findDuplicates : List Asset → List String → List Asset × List String
  | [], _ => ([], [])
  | a :: rest, seen =>
    if a.name ∈ seen then
      let r := findDuplicates rest seen
      (r.1, ("Duplicate key value found: " ++ a.name) :: r.2)
    else
      let r := findDuplicates rest (a.name :: seen)
      (a :: r.1, r.2)

/-- Errors thrown by the embedded methods. `http status` models the
`Error("HTTP error with status: ...")` thrown by `figmaGet`;
`pageNotFound` / `frameNotFound` model the two `throw new Error(...)` of
`setAssets`. -/
inductive ExporterError where
  | http (status : Nat)
  | pageNotFound (page : String)
  | frameNotFound (frame : String)
deriving Repr, DecidableEq

def ExporterError.isNotFound : ExporterError → Bool
  | .http _ => false
  | _ => true

/-- The pure core of `setAssets` (`src/index.js` lines 117-171) applied to
an already-fetched document node `doc` (`res.document`): page lookup,
optional frame lookup, variant expansion, deduplication.  Returns the
deduplicated descriptor list and the duplicate warnings. -/
def resolveFromDocument (cfg : Config) (doc : Node) :
    Except ExporterError (List Asset × List String) :=
  match doc.children.find? (fun c => c.name == cfg.page) with
  | none => .error (.pageNotFound cfg.page)
  | some page =>
    match cfg.frame with
    | none =>
      .ok (findDuplicates (page.children.flatMap (expandAsset cfg.exportVariants)) [])
    | some f =>
      match page.children.find? (fun c => c.name == f) with
      | none => .error (.frameNotFound f)
      | some frameRoot =>
        .ok (findDuplicates (frameRoot.children.flatMap (expandAsset cfg.exportVariants)) [])

/-- The mutable instance state of a `FigmaExporter`: `this.config` and
`this.assets`. -/
structure ExporterState where
  config : Config
  assets : List Asset
deriving Repr

/-- The method `setAssets` (`src/index.js` lines 112-174) as a state transformer.
`fetchResult` is the outcome of `figmaGet("v1/files/...")`: either the
document node or a non-success HTTP status (on which `figmaGet` throws).
A thrown error leaves the state exactly as it was, because the only
assignment `this.assets = findDuplicates(...)` is the last statement. -/
def setAssetsRun (fetchResult : Except Nat Node) (s : ExporterState) :
    Except ExporterError Unit × ExporterState :=
  match fetchResult with
  | .error status => (.error (.http status), s)
  | .ok doc =>
    match resolveFromDocument s.config doc with
    | .error e => (.error e, s)
    | .ok (assets, _warns) => (.ok (), { s with assets := assets })

/-- The chunking of the export loop
`for (let i = 0; i < assets.length; i += config.batchSize)`
(`src/index.js` line 178): contiguous slices of length `batchSize`.  The
JS loop never terminates for `batchSize = 0`; the model returns `[]` there
and theorems assume `0 < batchSize`. -/
def chunksOfFuel : Nat → Nat → List α → List (List α)
  | 0, _, _ => []
  | _, _, [] => []
  | fuel + 1, n, x :: xs =>
    if n = 0 then []
    else (x :: xs).take n :: chunksOfFuel fuel n ((x :: xs).drop n)

def chunksOf (n : Nat) (l : List α) : List (List α) :=
  chunksOfFuel l.length n l

theorem chunksOfFuel_nil (f n : Nat) : chunksOfFuel f n ([] : List α) = [] := by
  cases f <;> rfl

theorem chunksOfFuel_congr (n : Nat) :
    ∀ (f1 f2 : Nat) (l : List α), l.length ≤ f1 → l.length ≤ f2 →
      chunksOfFuel f1 n l = chunksOfFuel f2 n l
  | f1, f2, [], _, _ => by rw [chunksOfFuel_nil, chunksOfFuel_nil]
  | 0, _, x :: xs, h1, _ => by simp at h1
  | _ + 1, 0, x :: xs, _, h2 => by simp at h2
  | f1 + 1, f2 + 1, x :: xs, h1, h2 => by
    by_cases hn : n = 0
    · simp [chunksOfFuel, hn]
    · simp only [chunksOfFuel, if_neg hn]
      have hd : ((x :: xs).drop n).length ≤ f1 := by
        simp only [List.length_drop, List.length_cons]
        simp only [List.length_cons] at h1
        omega
      have hd2 : ((x :: xs).drop n).length ≤ f2 := by
        simp only [List.length_drop, List.length_cons]
        simp only [List.length_cons] at h2
        omega
      rw [chunksOfFuel_congr n f1 f2 ((x :: xs).drop n) hd hd2]

/-- The batch image-URL endpoint `GET v1/images/{fileId}` as an oracle: it
receives the comma-joined id list, the format and the scale of one request
and returns either a non-success HTTP status (on which `figmaGet` throws)
or the `images` map from node id to signed URL (`none` for ids the remote
export failed on, i.e. absent from the JSON map). -/
abbrev ImagesApi := List String → String → Nat → Except Nat (String → Option String)

/-- The export step of `processAssets` (`src/index.js` lines 177-191) over
an already-chunked list: for each batch in order, one request; on success
`asset.url = res.images[asset.id]` for every asset of the batch; on a
thrown HTTP error the loop aborts, leaving the current and later batches
untouched.  Returns (outcome, assets after the loop, id lists of the
requests that were issued, in order). -/
def exportBatchesGo (api : ImagesApi) (format : String) (scale : Nat) :
    List (List Asset) → Except Nat Unit × List Asset × List (List String)
  | [] => (.ok (), [], [])
  | batch :: rest =>
    let ids := batch.map (·.id)
    match api ids format scale with
    | .error status => (.error status, batch ++ rest.flatten, [ids])
    | .ok images =>
      let updated := batch.map fun a => { a with url := images a.id }
      let r := exportBatchesGo api format scale rest
      (r.1, updated ++ r.2.1, ids :: r.2.2)

/-- The export step of `processAssets` on the flat asset list. -/
def exportStep (api : ImagesApi) (cfg : Config) (assets : List Asset) :
    Except Nat Unit × List Asset × List (List String) :=
  exportBatchesGo api cfg.format cfg.scale (chunksOf cfg.batchSize assets)

/-- The local filesystem: an association list from relative path (relative
to `config.assetsPath`, `/`-separated) to file content (byte list). -/
abbrev Fs := List (String × List Nat)

/-- Model of `fs.createWriteStream` plus pipe: (over)write one file. -/
def writeFile (fs : Fs) (p : String) (bytes : List Nat) : Fs :=
  fs.filter (fun e => e.1 ≠ p) ++ [(p, bytes)]

/-- The relative target path `${asset.name}.${config.format}` of the save
step (`src/index.js` line 199). -/
def targetPath (format : String) (a : Asset) : String :=
  a.name ++ "." ++ format

/-- The binary download `fetch(asset.url, ...)` as an oracle: per URL,
either a non-success HTTP status or the body bytes. -/
abbrev DownloadOracle := String → Except Nat (List Nat)

/-- The save step of `processAssets` (`src/index.js` lines 193-226):
descriptors without `url` are filtered out; each remaining task fetches
its URL, warns and writes nothing on a non-success status, and otherwise
writes the body to `name.format`.  `Promise.allSettled` makes the step
total: it returns (filesystem, written paths, warnings) and never throws.
Tasks run under a concurrency limiter; the model executes them in list
order, which fixes one of the schedules (each task touches a distinct
derived path, so the final filesystem is schedule-independent). -/
def saveStep (dl : DownloadOracle) (format : String) :
    List Asset → Fs → Fs × List String × List String
  | [], fs => (fs, [], [])
  | a :: rest, fs =>
    match a.url with
    | none => saveStep dl format rest fs
    | some u =>
      match dl u with
      | .error status =>
        let r := saveStep dl format rest fs
        (r.1, r.2.1,
          ("Download failed: " ++ targetPath format a ++ " - " ++ toString status) :: r.2.2)
      | .ok bytes =>
        let r := saveStep dl format rest (writeFile fs (targetPath format a) bytes)
        (r.1, targetPath format a :: r.2.1, r.2.2)

/-- The method `processAssets(config, assets)` (`src/index.js` lines 176-227): export
step then save step.  A thrown HTTP error in the export step propagates
(`.error status`) before any download starts; the save step itself never
throws.  Returns (outcome, filesystem, written paths, warnings, issued
request id lists, the asset list as mutated by the export step). -/
def processAssetsRun (api : ImagesApi) (dl : DownloadOracle) (cfg : Config)
    (assets : List Asset) (fs : Fs) :
    Except Nat Unit × Fs × List String × List String × List (List String) × List Asset :=
  let e := exportStep api cfg assets
  match e.1 with
  | .error status => (.error status, fs, [], [], e.2.2, e.2.1)
  | .ok () =>
    let r := saveStep dl cfg.format e.2.1 fs
    (.ok (), r.1, r.2.1, r.2.2, e.2.2, e.2.1)

/-- The `skipExistingFiles` filter of `createAssets` (`src/index.js` lines
265-286): `existing` is the set of relative paths below `assetsPath`
returned by the recursive walk `getAllFilesRecursively` (in the flat-path
filesystem model: the stored keys); a descriptor is dropped iff its target
relative path `name.format` is a member.  Returns (kept descriptors,
skipped count). -/
def skipExistingFilter (existing : List String) (format : String)
    (assets : List Asset) : List Asset × Nat :=
  (assets.filter fun a => !(existing.contains (targetPath format a)),
   (assets.filter fun a => existing.contains (targetPath format a)).length)

/-- Everything observable about one `createAssets` call. -/
structure RunResult where
  /-- The instance state (`this.config`, `this.assets`) after the call. -/
  state : ExporterState
  /-- The filesystem after the call. -/
  fs : Fs
  /-- Relative paths written during the call, in write order. -/
  written : List String
  /-- `console.warn` lines (skip report, download failures). -/
  warnings : List String
  /-- `console.error` lines (`createAssets() failed: ...`). -/
  errors : List String
  /-- Id lists of the issued batch export-URL requests, in order. -/
  requests : List (List String)
  /-- What `createAssets` hands back to its caller: always `.ok` state
  unless the model of an uncaught error is needed; `none` means the call
  resolved normally, `some e` that the returned promise rejected with `e`. -/
  thrown : Option Nat

/-- The descriptor list `createAssets` hands to `processAssets`: each
stored descriptor shallow-copied with `assetsPath` set, the transform
applied to a copy of the array, and — when `skipExistingFiles` — the
already-on-disk descriptors dropped. -/
def effectiveAssets (transform : List Asset → List Asset) (overrides : Overrides)
    (s : ExporterState) (fs : Fs) : List Asset :=
  let config := mergeConfig s.config overrides
  let assets0 := transform (s.assets.map fun a => { a with assetsPath := some config.assetsPath })
  if config.skipExistingFiles then
    (skipExistingFilter (fs.map (·.1)) config.format assets0).1
  else assets0

/-- The `console.warn("Skipped: ...")` of `createAssets`: emitted only when
`skipExistingFiles` is set and at least one descriptor was dropped. -/
def skipWarnings (transform : List Asset → List Asset) (overrides : Overrides)
    (s : ExporterState) (fs : Fs) : List String :=
  let config := mergeConfig s.config overrides
  let assets0 := transform (s.assets.map fun a => { a with assetsPath := some config.assetsPath })
  if config.skipExistingFiles then
    let skipped := (skipExistingFilter (fs.map (·.1)) config.format assets0).2
    if 0 < skipped then ["Skipped: " ++ toString skipped] else []
  else []

/-- The method `createAssets(assetTransformFn, configOverrides)` (`src/index.js`
lines 236-295).  `transform` is the `assetTransformFn` argument (default
identity).  Steps: shallow-merge the config; shallow-copy each stored
descriptor, setting `assetsPath`; apply the transform to a copy of the
array; if `skipExistingFiles`, drop descriptors whose target relative path
is already on disk and warn with the skipped count; run `processAssets`
inside `try { ... } catch (err) { console.error(...) }`, so an export-step
error is logged and the call still resolves with the instance
(`thrown = none` in every case, and `this.config` / `this.assets` are
never reassigned). -/
def createAssetsRun (api : ImagesApi) (dl : DownloadOracle)
    (transform : List Asset → List Asset) (overrides : Overrides)
    (s : ExporterState) (fs : Fs) : RunResult :=
  let config := mergeConfig s.config overrides
  let p := processAssetsRun api dl config (effectiveAssets transform overrides s fs) fs
  { state := s
    fs := p.2.1
    written := p.2.2.1
    warnings := skipWarnings transform overrides s fs ++ p.2.2.2.1
    errors :=
      match p.1 with
      | .error status => ["createAssets() failed: HTTP error with status: " ++ toString status]
      | .ok _ => []
    requests := p.2.2.2.2.1
    thrown := none }

/-- Whether the save-step task of a descriptor downloads successfully:
it has a URL and the fetch returns a success status. -/
def downloadOk (dl : DownloadOracle) (a : Asset) : Bool :=
  match a.url with
  | none => false
  | some u =>
    match dl u with
    | .ok _ => true
    | .error _ => false

/-- The body bytes a successful task writes (junk value off the success
path). -/
def fetchBytes (dl : DownloadOracle) (a : Asset) : List Nat :=
  match a.url with
  | none => []
  | some u =>
    match dl u with
    | .ok b => b
    | .error _ => []

/-! ### Helper lemmas shared by the claim theorems -/

theorem chunksOf_cons (n : Nat) (hn : n ≠ 0) (x : α) (xs : List α) :
    chunksOf n (x :: xs) = (x :: xs).take n :: chunksOf n ((x :: xs).drop n) := by
  have h1 : ((x :: xs).drop n).length ≤ xs.length := by
    simp only [List.length_drop, List.length_cons]
    omega
  show chunksOfFuel (x :: xs).length n (x :: xs) = _
  simp only [List.length_cons, chunksOfFuel, if_neg hn]
  rw [chunksOf, chunksOfFuel_congr n xs.length ((x :: xs).drop n).length _ h1 le_rfl]

theorem chunksOf_flatten (n : Nat) (hn : n ≠ 0) :
    ∀ l : List α, (chunksOf n l).flatten = l
  | [] => by simp [chunksOf, chunksOfFuel_nil]
  | x :: xs => by
    have ih := chunksOf_flatten n hn ((x :: xs).drop n)
    rw [chunksOf_cons n hn, List.flatten_cons, ih, List.take_append_drop]
termination_by l => l.length
decreasing_by
  simpa using Nat.sub_lt (Nat.succ_pos xs.length) (Nat.pos_of_ne_zero hn)

theorem chunksOf_length_le (n : Nat) (hn : n ≠ 0) :
    ∀ l : List α, ∀ c ∈ chunksOf n l, c.length ≤ n
  | [] => by simp [chunksOf, chunksOfFuel_nil]
  | x :: xs => by
    have ih := chunksOf_length_le n hn ((x :: xs).drop n)
    rw [chunksOf_cons n hn]
    intro c hc
    rcases List.mem_cons.mp hc with rfl | hc
    · simpa [List.length_take] using Nat.min_le_left n (x :: xs).length
    · exact ih c hc
termination_by l => l.length
decreasing_by
  simpa using Nat.sub_lt (Nat.succ_pos xs.length) (Nat.pos_of_ne_zero hn)

theorem exportBatchesGo_format_unchanged (api : ImagesApi) (fmt : String) (sc : Nat) :
    ∀ chunks : List (List Asset),
      ((exportBatchesGo api fmt sc chunks).2.1).map (·.format) = chunks.flatten.map (·.format)
  | [] => rfl
  | batch :: rest => by
    simp only [exportBatchesGo]
    cases api (batch.map (·.id)) fmt sc with
    | error st => simp
    | ok images =>
      simp only [List.flatten_cons, List.map_append, List.map_map,
        exportBatchesGo_format_unchanged api fmt sc rest]
      rfl

theorem exportBatchesGo_const (urlOf : String → Option String) (fmt : String) (sc : Nat) :
    ∀ chunks : List (List Asset),
      exportBatchesGo (fun _ _ _ => .ok urlOf) fmt sc chunks =
        (.ok (), chunks.flatten.map (fun a => { a with url := urlOf a.id }),
          chunks.map (·.map (·.id)))
  | [] => rfl
  | batch :: rest => by
    simp [exportBatchesGo, exportBatchesGo_const urlOf fmt sc rest]

theorem exportStep_const (urlOf : String → Option String) (cfg : Config)
    (hbs : cfg.batchSize ≠ 0) (assets : List Asset) :
    exportStep (fun _ _ _ => .ok urlOf) cfg assets =
      (.ok (), assets.map (fun a => { a with url := urlOf a.id }),
        (chunksOf cfg.batchSize assets).map (·.map (·.id))) := by
  rw [exportStep, exportBatchesGo_const, chunksOf_flatten cfg.batchSize hbs]

theorem saveStep_written (dl : DownloadOracle) (fmt : String) :
    ∀ (assets : List Asset) (fs : Fs),
      (saveStep dl fmt assets fs).2.1 =
        (assets.filter (downloadOk dl)).map (targetPath fmt)
  | [], _ => rfl
  | a :: rest, fs => by
    simp only [saveStep]
    cases hu : a.url with
    | none =>
      simp [List.filter_cons, downloadOk, hu, saveStep_written dl fmt rest fs]
    | some u =>
      cases hdl : dl u with
      | error st =>
        simp [List.filter_cons, downloadOk, hu, hdl, saveStep_written dl fmt rest fs]
      | ok b =>
        simp [List.filter_cons, downloadOk, hu, hdl,
          saveStep_written dl fmt rest (writeFile fs (targetPath fmt a) b)]

theorem saveStep_fs_eq (dl : DownloadOracle) (fmt : String) :
    ∀ (assets : List Asset) (fs : Fs),
      (saveStep dl fmt assets fs).1 =
        (assets.filter (downloadOk dl)).foldl
          (fun acc a => writeFile acc (targetPath fmt a) (fetchBytes dl a)) fs
  | [], _ => rfl
  | a :: rest, fs => by
    simp only [saveStep]
    cases hu : a.url with
    | none =>
      simp [List.filter_cons, downloadOk, hu, saveStep_fs_eq dl fmt rest fs]
    | some u =>
      cases hdl : dl u with
      | error st =>
        simp [List.filter_cons, downloadOk, hu, hdl, saveStep_fs_eq dl fmt rest fs]
      | ok b =>
        simp only [List.filter_cons, downloadOk, hu, hdl, if_pos]
        rw [saveStep_fs_eq dl fmt rest (writeFile fs (targetPath fmt a) b)]
        simp [List.foldl_cons, fetchBytes, hu, hdl]

theorem saveStep_warnings_length (dl : DownloadOracle) (fmt : String) :
    ∀ (assets : List Asset) (fs : Fs),
      (saveStep dl fmt assets fs).2.2.length =
        (assets.filter (fun a => a.url.isSome && !(downloadOk dl a))).length
  | [], _ => rfl
  | a :: rest, fs => by
    simp only [saveStep]
    cases hu : a.url with
    | none =>
      simp [List.filter_cons, downloadOk, hu, saveStep_warnings_length dl fmt rest fs]
    | some u =>
      cases hdl : dl u with
      | error st =>
        simp [List.filter_cons, downloadOk, hu, hdl, saveStep_warnings_length dl fmt rest fs]
      | ok b =>
        simp [List.filter_cons, downloadOk, hu, hdl,
          saveStep_warnings_length dl fmt rest (writeFile fs (targetPath fmt a) b)]

theorem saveStep_filter_url (dl : DownloadOracle) (fmt : String) :
    ∀ (assets : List Asset) (fs : Fs),
      saveStep dl fmt (assets.filter (·.url.isSome)) fs = saveStep dl fmt assets fs
  | [], _ => rfl
  | a :: rest, fs => by
    cases hu : a.url with
    | none =>
      have hf : (a :: rest).filter (fun x => x.url.isSome) =
          rest.filter (fun x => x.url.isSome) := by
        simp [List.filter_cons, hu]
      rw [hf, saveStep_filter_url dl fmt rest fs]
      simp [saveStep, hu]
    | some u =>
      have hf : (a :: rest).filter (fun x => x.url.isSome) =
          a :: rest.filter (fun x => x.url.isSome) := by
        simp [List.filter_cons, hu]
      rw [hf]
      simp only [saveStep, hu]
      cases hdl : dl u with
      | error st =>
        dsimp only
        rw [saveStep_filter_url dl fmt rest fs]
      | ok b =>
        dsimp only
        rw [saveStep_filter_url dl fmt rest (writeFile fs (targetPath fmt a) b)]

theorem writeFile_paths_mono {fs : Fs} {q p : String} {b : List Nat}
    (h : q ∈ fs.map (·.1)) : q ∈ (writeFile fs p b).map (·.1) := by
  by_cases hq : q = p
  · subst hq
    simp [writeFile]
  · obtain ⟨e, he, rfl⟩ := List.mem_map.mp h
    simp only [writeFile, List.map_append, List.mem_append]
    exact Or.inl (List.mem_map.mpr ⟨e, List.mem_filter.mpr ⟨he, by simpa using hq⟩, rfl⟩)

theorem writeFile_paths_self (fs : Fs) (p : String) (b : List Nat) :
    p ∈ (writeFile fs p b).map (·.1) := by
  simp [writeFile]

/-- Folding writes over a list of descriptors never removes a path from
the filesystem. -/
theorem foldl_write_paths_mono (dl : DownloadOracle) (fmt : String) :
    ∀ (ws : List Asset) (fs : Fs) (q : String), q ∈ fs.map (·.1) →
      q ∈ ((ws.foldl (fun acc a => writeFile acc (targetPath fmt a) (fetchBytes dl a)) fs).map (·.1))
  | [], _, _, h => h
  | w :: ws, fs, q, h =>
    foldl_write_paths_mono dl fmt ws _ q (writeFile_paths_mono h)

/-- Every descriptor in the fold's list ends up with its target path on the
filesystem. -/
theorem foldl_write_paths_mem (dl : DownloadOracle) (fmt : String) :
    ∀ (ws : List Asset) (fs : Fs), ∀ a ∈ ws,
      targetPath fmt a ∈ ((ws.foldl (fun acc a => writeFile acc (targetPath fmt a) (fetchBytes dl a)) fs).map (·.1))
  | w :: ws, fs, a, ha => by
    rcases List.mem_cons.mp ha with rfl | ha
    · exact foldl_write_paths_mono dl fmt ws _ _ (writeFile_paths_self fs _ _)
    · exact foldl_write_paths_mem dl fmt ws _ a ha

/-- Paths already on the filesystem survive the save step. -/
theorem saveStep_paths_mono (dl : DownloadOracle) (fmt : String)
    (assets : List Asset) (fs : Fs) {q : String} (h : q ∈ fs.map (·.1)) :
    q ∈ ((saveStep dl fmt assets fs).1.map (·.1)) := by
  rw [saveStep_fs_eq]
  exact foldl_write_paths_mono dl fmt _ fs q h

/-- Every path the save step reports as written is on the resulting
filesystem. -/
theorem saveStep_written_on_fs (dl : DownloadOracle) (fmt : String)
    (assets : List Asset) (fs : Fs) {q : String}
    (h : q ∈ (saveStep dl fmt assets fs).2.1) :
    q ∈ ((saveStep dl fmt assets fs).1.map (·.1)) := by
  rw [saveStep_written] at h
  rw [saveStep_fs_eq]
  obtain ⟨a, ha, rfl⟩ := List.mem_map.mp h
  exact foldl_write_paths_mem dl fmt _ fs a ha

/-- The main invariant of `findDuplicates`, generalised over the starting
`seen` set: the kept sublist has pairwise-distinct names, none of them in
`seen`; warnings count the dropped elements; and for each name the first
kept element with that name is the first input element with that name,
unless the name was pre-seeded in `seen`. -/
theorem findDuplicates_invariant :
    ∀ (l : List Asset) (seen : List String),
      ((findDuplicates l seen).1.map (·.name)).Nodup ∧
      (findDuplicates l seen).1.Sublist l ∧
      (findDuplicates l seen).2.length + (findDuplicates l seen).1.length = l.length ∧
      (∀ a ∈ (findDuplicates l seen).1, a.name ∉ seen) ∧
      (∀ n : String, (findDuplicates l seen).1.find? (fun a => a.name == n) =
        if n ∈ seen then none else l.find? (fun a => a.name == n))
  | [], seen => by simp [findDuplicates]
  | a :: rest, seen => by
    by_cases h : a.name ∈ seen
    · obtain ⟨ih1, ih2, ih3, ih4, ih5⟩ := findDuplicates_invariant rest seen
      simp only [findDuplicates, if_pos h]
      refine ⟨ih1, ih2.trans (List.sublist_cons_self a rest),
        by simp only [List.length_cons]; omega, ih4, ?_⟩
      intro n
      rw [ih5 n]
      by_cases hn : n ∈ seen
      · simp [hn]
      · have hna : ¬ ((fun b : Asset => b.name == n) a) = true := by
          simp only [beq_iff_eq]
          intro he
          exact hn (he ▸ h)
        rw [List.find?_cons_of_neg (p := fun b : Asset => b.name == n) rest hna]
    · obtain ⟨ih1, ih2, ih3, ih4, ih5⟩ := findDuplicates_invariant rest (a.name :: seen)
      simp only [findDuplicates, if_neg h]
      refine ⟨?_, ih2.cons₂ a, by simp only [List.length_cons]; omega, ?_, ?_⟩
      · simp only [List.map_cons, List.nodup_cons]
        exact ⟨fun hmem => by
          obtain ⟨b, hb, hbn⟩ := List.mem_map.mp hmem
          exact ih4 b hb (hbn ▸ List.mem_cons_self a.name seen), ih1⟩
      · intro b hb
        rcases List.mem_cons.mp hb with rfl | hb
        · exact h
        · exact fun hs => ih4 b hb (List.mem_cons_of_mem _ hs)
      · intro n
        by_cases hn : n = a.name
        · subst hn
          have hpa : ((fun b : Asset => b.name == a.name) a) = true := by simp
          rw [List.find?_cons_of_pos (p := fun b : Asset => b.name == a.name) _ hpa,
            List.find?_cons_of_pos (p := fun b : Asset => b.name == a.name) rest hpa]
          simp [h]
        · have hna : ¬ ((fun b : Asset => b.name == n) a) = true := by
            simp only [beq_iff_eq]
            exact fun he => hn he.symm
          rw [List.find?_cons_of_neg (p := fun b : Asset => b.name == n) _ hna,
            List.find?_cons_of_neg (p := fun b : Asset => b.name == n) rest hna, ih5 n]
          have hmem : (n ∈ a.name :: seen) ↔ (n ∈ seen) := by
            simp [List.mem_cons, hn]
          simp only [hmem]

/-- Error characterisation of the resolution step: it fails exactly when
the page lookup fails, or a frame is configured and the frame lookup inside
the found page fails. -/
theorem resolveFromDocument_error_iff (cfg : Config) (doc : Node) :
    (∃ e, resolveFromDocument cfg doc = .error e) ↔
      ((∀ c ∈ doc.children, c.name ≠ cfg.page) ∨
        ∃ f page, cfg.frame = some f ∧
          doc.children.find? (fun c => c.name == cfg.page) = some page ∧
          ∀ c ∈ page.children, c.name ≠ f) := by
  cases hp : doc.children.find? (fun c => c.name == cfg.page) with
  | none =>
    simp only [resolveFromDocument, hp]
    constructor
    · intro _
      left
      intro c hc
      have := List.find?_eq_none.mp hp c hc
      simpa using this
    · intro _
      exact ⟨.pageNotFound cfg.page, rfl⟩
  | some page =>
    have hpmem : page ∈ doc.children := List.mem_of_find?_eq_some hp
    have hpname : page.name = cfg.page := by simpa using List.find?_some hp
    cases hf : cfg.frame with
    | none =>
      simp only [resolveFromDocument, hp, hf]
      constructor
      · rintro ⟨e, he⟩
        cases he
      · rintro (hnone | ⟨f, pg, hfeq, _, _⟩)
        · exact absurd hpname (hnone page hpmem)
        · cases hfeq
    | some f =>
      cases hfr : page.children.find? (fun c => c.name == f) with
      | none =>
        simp only [resolveFromDocument, hp, hf, hfr]
        constructor
        · intro _
          right
          refine ⟨f, page, rfl, rfl, ?_⟩
          intro c hc
          have := List.find?_eq_none.mp hfr c hc
          simpa using this
        · intro _
          exact ⟨.frameNotFound f, rfl⟩
      | some frameRoot =>
        simp only [resolveFromDocument, hp, hf, hfr]
        constructor
        · rintro ⟨e, he⟩
          cases he
        · rintro (hnone | ⟨f2, pg, hfeq, hpg, hnochild⟩)
          · exact absurd hpname (hnone page hpmem)
          · cases hpg
            cases hfeq
            have hmem := List.mem_of_find?_eq_some hfr
            have hname : frameRoot.name = f := by simpa using List.find?_some hfr
            exact absurd hname (hnochild frameRoot hmem)

/-! ### Claim theorems -/

/-- C1: for every node in the resolver's working set, if `exportVariants`
is false or the node has no children, resolution emits exactly the one
descriptor `{id: node.id, name: node.name}`; otherwise it emits one
descriptor per child named `parentName/<variantKey childName>` where
`variantKey` splits on `,`, trims each part and rejoins with `--`; e.g.
children `"filled=true, size=large"`, `"filled=false, size=large"` under
parent `"star"` resolve to `star/filled=true--size=large` and
`star/filled=false--size=large`. -/
theorem c1_variant_expansion :
    (∀ (ev : Bool) (node : Node), (ev = false ∨ node.children = []) →
      expandAsset ev node = [{ id := node.id, name := node.name }]) ∧
    (∀ node : Node, node.children ≠ [] →
      expandAsset true node = node.children.map fun child =>
        { id := child.id, name := node.name ++ "/" ++ variantKey child.name }) ∧
    variantKey "filled=true, size=large" = "filled=true--size=large" ∧
    resolveFromDocument { page := "p" } (.mk "0" "root"
      [.mk "1" "p" [.mk "2" "star"
        [.mk "3" "filled=true, size=large" [],
         .mk "4" "filled=false, size=large" []]]]) =
      .ok ([{ id := "3", name := "star/filled=true--size=large" },
            { id := "4", name := "star/filled=false--size=large" }], []) := by
  refine ⟨?_, ?_, by decide, by rfl⟩
  · rintro ev node (rfl | hc)
    · simp [expandAsset]
    · simp [expandAsset, hc]
  · intro node hc
    simp [expandAsset, hc]

/-- Witness for C1: both branches of the emission rule evaluated at
concrete nodes. -/
theorem c1_variant_expansion_witness :
    expandAsset false (.mk "9" "gear" [.mk "10" "x" []]) = [{ id := "9", name := "gear" }] ∧
    expandAsset true (.mk "2" "star" [.mk "3" "filled=true, size=large" []]) =
      [{ id := "3", name := "star/filled=true--size=large" }] := by
  constructor
  · exact c1_variant_expansion.1 false _ (Or.inl rfl)
  · rw [c1_variant_expansion.2.1 (.mk "2" "star" [.mk "3" "filled=true, size=large" []])
      (List.cons_ne_nil _ _)]
    decide

/-- C2: deduplication keeps only the first occurrence of each name (the
dedup key is the name), preserves the insertion order of the kept
descriptors, emits one warning per dropped duplicate, and the result has
pairwise-distinct names. -/
theorem c2_dedup_first_seen (l : List Asset) :
    ((findDuplicates l []).1.map (·.name)).Nodup ∧
    (findDuplicates l []).1.Sublist l ∧
    (findDuplicates l []).2.length + (findDuplicates l []).1.length = l.length ∧
    ∀ n : String, (findDuplicates l []).1.find? (fun a => a.name == n) =
      l.find? (fun a => a.name == n) := by
  obtain ⟨h1, h2, h3, _, h5⟩ := findDuplicates_invariant l []
  refine ⟨h1, h2, h3, fun n => ?_⟩
  simpa using h5 n

/-- C7: resolution fails (always with a not-found error) iff no child of
the document root is named exactly `page`, or a frame is configured and no
child of the found page is named exactly `frame`; with no frame configured
it operates directly on the page's children. -/
theorem c7_not_found_iff (cfg : Config) (doc : Node) :
    ((∃ e, resolveFromDocument cfg doc = .error e) ↔
      ((∀ c ∈ doc.children, c.name ≠ cfg.page) ∨
        ∃ f page, cfg.frame = some f ∧
          doc.children.find? (fun c => c.name == cfg.page) = some page ∧
          ∀ c ∈ page.children, c.name ≠ f)) ∧
    (∀ e, resolveFromDocument cfg doc = .error e → e.isNotFound = true) ∧
    (∀ page, cfg.frame = none →
      doc.children.find? (fun c => c.name == cfg.page) = some page →
      resolveFromDocument cfg doc =
        .ok (findDuplicates (page.children.flatMap (expandAsset cfg.exportVariants)) [])) := by
  refine ⟨resolveFromDocument_error_iff cfg doc, ?_, ?_⟩
  · intro e he
    cases hp : doc.children.find? (fun c => c.name == cfg.page) with
    | none =>
      simp only [resolveFromDocument, hp] at he
      cases he
      rfl
    | some page =>
      cases hf : cfg.frame with
      | none =>
        simp only [resolveFromDocument, hp, hf] at he
        cases he
      | some f =>
        cases hfr : page.children.find? (fun c => c.name == f) with
        | none =>
          simp only [resolveFromDocument, hp, hf, hfr] at he
          cases he
          rfl
        | some fr =>
          simp only [resolveFromDocument, hp, hf, hfr] at he
          cases he
  · intro page hf hp
    simp only [resolveFromDocument, hp, hf]

/-- Witness for C7: a missing page produces an error, and a present page
with no frame configured resolves over the page's children. -/
theorem c7_not_found_iff_witness :
    (∃ e, resolveFromDocument { page := "missing" }
        (.mk "0" "root" [.mk "1" "other" []]) = .error e) ∧
    resolveFromDocument { page := "other" }
        (.mk "0" "root" [.mk "1" "other" []]) =
      .ok (findDuplicates
        ((Node.mk "1" "other" []).children.flatMap (expandAsset true)) []) := by
  constructor
  · exact (c7_not_found_iff _ _).1.mpr (Or.inl (by decide))
  · exact (c7_not_found_iff _ _).2.2 (Node.mk "1" "other" []) rfl (by rfl)

/-- C8: resolution is a deterministic function of the document tree and
the configuration — equal inputs give descriptor sequences equal in order
and content. -/
theorem c8_resolution_deterministic (cfg cfg2 : Config) (doc doc2 : Node)
    (hc : cfg = cfg2) (hd : doc = doc2) :
    resolveFromDocument cfg doc = resolveFromDocument cfg2 doc2 := by
  rw [hc, hd]

/-- Witness for C8: two runs on the same concrete tree and configuration
agree. -/
theorem c8_resolution_deterministic_witness :
    resolveFromDocument { page := "p" } (.mk "0" "root" [.mk "1" "p" []]) =
      resolveFromDocument { page := "p" } (.mk "0" "root" [.mk "1" "p" []]) :=
  c8_resolution_deterministic _ _ _ _ rfl rfl

/-- C10: whenever `setAssets` fails — document fetch error, missing page
or missing frame — the stored asset list (indeed the whole instance state)
is unchanged, because the assignment to `this.assets` happens only after
every failure point; and each failure reason does surface as an error. -/
theorem c10_setAssets_atomic (fr : Except Nat Node) (s : ExporterState) :
    (∀ e, (setAssetsRun fr s).1 = .error e → (setAssetsRun fr s).2 = s) ∧
    (∀ st, fr = .error st → (setAssetsRun fr s).1 = .error (.http st)) ∧
    (∀ doc e, fr = .ok doc → resolveFromDocument s.config doc = .error e →
      (setAssetsRun fr s).1 = .error e) := by
  cases fr with
  | error st =>
    refine ⟨fun _ _ => rfl, fun st2 h => ?_, fun doc e h => ?_⟩
    · cases h
      rfl
    · cases h
  | ok doc =>
    cases hr : resolveFromDocument s.config doc with
    | error e =>
      refine ⟨fun e2 _ => ?_, fun st h => ?_, fun doc2 e2 h h2 => ?_⟩
      · simp [setAssetsRun, hr]
      · cases h
      · cases h
        rw [hr] at h2
        cases h2
        simp [setAssetsRun, hr]
    | ok pair =>
      obtain ⟨assets, warns⟩ := pair
      refine ⟨fun e2 h => ?_, fun st h => ?_, fun doc2 e2 h h2 => ?_⟩
      · exfalso
        simp [setAssetsRun, hr] at h
      · cases h
      · cases h
        rw [hr] at h2
        cases h2

/-- Witness for C10: a failed document fetch leaves a concrete instance
state untouched and surfaces the HTTP error. -/
theorem c10_setAssets_atomic_witness :
    (setAssetsRun (.error 500)
        { config := {}, assets := [{ id := "1", name := "a" }] }).2 =
      { config := {}, assets := [{ id := "1", name := "a" }] } ∧
    (setAssetsRun (.error 500)
        { config := {}, assets := [{ id := "1", name := "a" }] }).1 =
      .error (.http 500) :=
  ⟨(c10_setAssets_atomic (.error 500) _).1 (.http 500) rfl,
   (c10_setAssets_atomic (.error 500) _).2.1 500 rfl⟩

/-- Counterexample for C3: `processAssets` writes only the returned URL
onto a descriptor; the `format` field stays unset (in the source the
descriptor never even has a `format` property), so the claim that the
format is written onto each matching descriptor fails already for a single
descriptor whose export URL request succeeds. -/
theorem c3_format_not_written_counterexample :
    ((exportStep (fun _ _ _ => .ok fun i => if i == "1" then some "http://u" else none)
        {} [{ id := "1", name := "a" }]).2.1.map (·.url) = [some "http://u"]) ∧
    ¬ ∀ a ∈ (exportStep (fun _ _ _ => .ok fun i => if i == "1" then some "http://u" else none)
        {} [{ id := "1", name := "a" }]).2.1,
      a.format = some ({} : Config).format := by
  constructor
  · decide
  · decide

set_option maxRecDepth 10000 in
/-- C3 (amended): the export coordinator partitions the descriptors into
contiguous chunks of at most `batchSize` (250 descriptors at the default
100 give exactly 3 requests with id-list lengths 100, 100, 50), issues the
per-chunk requests in chunk order, and writes the returned URL onto each
matching descriptor in place; the format is NOT stored on the descriptors
(their `format` field is exactly as before the export step — the file
extension is taken from the configuration at save time instead). -/
theorem c3_batching_amended :
    (∀ (bs : Nat) (assets : List Asset), bs ≠ 0 →
      (∀ c ∈ chunksOf bs assets, c.length ≤ bs) ∧ (chunksOf bs assets).flatten = assets) ∧
    (((exportStep (fun _ _ _ => .ok fun i => some ("u:" ++ i)) {}
        ((List.range 250).map fun k => { id := toString k, name := "a" ++ toString k })).2.2).map
      (·.length) = [100, 100, 50]) ∧
    (∀ (urlOf : String → Option String) (cfg : Config) (assets : List Asset),
      cfg.batchSize ≠ 0 →
      exportStep (fun _ _ _ => .ok urlOf) cfg assets =
        (.ok (), assets.map fun a => { a with url := urlOf a.id },
          (chunksOf cfg.batchSize assets).map (·.map (·.id)))) ∧
    (∀ (api : ImagesApi) (cfg : Config) (assets : List Asset),
      ((exportStep api cfg assets).2.1).map (·.format) =
        (chunksOf cfg.batchSize assets).flatten.map (·.format)) := by
  refine ⟨?_, by decide, ?_, ?_⟩
  · intro bs assets hbs
    exact ⟨chunksOf_length_le bs hbs assets, chunksOf_flatten bs hbs assets⟩
  · intro urlOf cfg assets hbs
    exact exportStep_const urlOf cfg hbs assets
  · intro api cfg assets
    exact exportBatchesGo_format_unchanged api cfg.format cfg.scale _

/-- Witness for C3 (amended): the chunking facts and the URL-writing
equation evaluated at concrete inputs. -/
theorem c3_batching_amended_witness :
    ((∀ c ∈ chunksOf 2 ([{ id := "1", name := "a" }, { id := "2", name := "b" },
        { id := "3", name := "c" }] : List Asset), c.length ≤ 2) ∧
      (chunksOf 2 ([{ id := "1", name := "a" }, { id := "2", name := "b" },
        { id := "3", name := "c" }] : List Asset)).flatten =
        [{ id := "1", name := "a" }, { id := "2", name := "b" }, { id := "3", name := "c" }]) ∧
    exportStep (fun _ _ _ => .ok fun i => some ("u:" ++ i)) { batchSize := 2 }
        [{ id := "1", name := "a" }] =
      (.ok (), [{ id := "1", name := "a", url := some "u:1" }], [["1"]]) := by
  constructor
  · exact c3_batching_amended.1 2 _ (by decide)
  · rw [c3_batching_amended.2.2.1 (fun i => some ("u:" ++ i)) { batchSize := 2 }
      [{ id := "1", name := "a" }] (by decide)]
    rfl

/-- Counterexample for C4: a failing batch request (status 500 on the
second of two single-descriptor batches) does NOT propagate to the caller
of `createAssets`: the call resolves normally (`thrown = none`) because the
`try/catch` inside `createAssets` swallows the error and only logs it. -/
theorem c4_no_propagation_counterexample :
    (createAssetsRun
        (fun ids _ _ => if ids.contains "2" then .error 500 else .ok fun i => some ("u:" ++ i))
        (fun _ => .ok [0]) id {}
        { config := { batchSize := 1 },
          assets := [{ id := "1", name := "a" }, { id := "2", name := "b" }] }
        []).thrown = none ∧
    (createAssetsRun
        (fun ids _ _ => if ids.contains "2" then .error 500 else .ok fun i => some ("u:" ++ i))
        (fun _ => .ok [0]) id {}
        { config := { batchSize := 1 },
          assets := [{ id := "1", name := "a" }, { id := "2", name := "b" }] }
        []).errors = ["createAssets() failed: HTTP error with status: 500"] :=
  ⟨rfl, rfl⟩

/-- C4 (amended): a non-success status on a batch export-URL request
aborts `processAssets` before any download — nothing is written, the
filesystem is untouched and the error is thrown out of `processAssets` —
while descriptors of earlier, already-processed batches keep their
assigned URLs (no rollback: see the concrete three-batch run, where the
request list also stops at the failing batch).  `createAssets`, however,
catches that error and resolves normally, so it never reaches
`createAssets`' caller. -/
theorem c4_batch_failure_aborts_amended :
    (∀ (api : ImagesApi) (dl : DownloadOracle) (cfg : Config) (assets : List Asset)
        (fs : Fs) (status : Nat),
      (exportStep api cfg assets).1 = .error status →
      processAssetsRun api dl cfg assets fs =
        (.error status, fs, [], [],
          (exportStep api cfg assets).2.2, (exportStep api cfg assets).2.1)) ∧
    (∀ (api : ImagesApi) (dl : DownloadOracle) (transform : List Asset → List Asset)
        (o : Overrides) (s : ExporterState) (fs : Fs),
      (createAssetsRun api dl transform o s fs).thrown = none) ∧
    (exportBatchesGo
        (fun ids _ _ => if ids.contains "2" then .error 500 else .ok fun i => some ("u:" ++ i))
        "svg" 1
        [[{ id := "1", name := "a" }], [{ id := "2", name := "b" }],
         [{ id := "3", name := "c" }]] =
      (.error 500,
        [{ id := "1", name := "a", url := some "u:1" }, { id := "2", name := "b" },
         { id := "3", name := "c" }],
        [["1"], ["2"]])) := by
  refine ⟨?_, fun _ _ _ _ _ _ => rfl, by rfl⟩
  intro api dl cfg assets fs status h
  simp only [processAssetsRun, h]

/-- Witness for C4 (amended): the abort equation evaluated at a concrete
always-failing request oracle. -/
theorem c4_batch_failure_aborts_amended_witness :
    processAssetsRun (fun _ _ _ => .error 404) (fun _ => .ok [0]) {}
        [{ id := "1", name := "a" }] [] =
      (.error 404, [], [], [],
        (exportStep (fun _ _ _ => .error 404) {} [{ id := "1", name := "a" }]).2.2,
        (exportStep (fun _ _ _ => .error 404) {} [{ id := "1", name := "a" }]).2.1) :=
  c4_batch_failure_aborts_amended.1 (fun _ _ _ => .error 404) (fun _ => .ok [0]) {}
    [{ id := "1", name := "a" }] [] 404 (by rfl)

/-- C5: the download scheduler ignores descriptors without a URL (they are
filtered, not an error); the written files are exactly the targets of the
descriptors whose fetch succeeds, with one warning per failed fetch; a
single failing task changes nothing about its siblings' files and written
paths (it only adds its own warning); the step as a whole — and
`processAssets` around it — returns normally whenever the export step did,
regardless of download failures (`Promise.allSettled` semantics: the model
is a total function into results, with no error outcome).  Concretely,
when one of five scheduled downloads fails, the other four files are still
written and the run still resolves. -/
theorem c5_download_failure_isolated :
    (∀ (dl : DownloadOracle) (fmt : String) (assets : List Asset) (fs : Fs),
      saveStep dl fmt (assets.filter (·.url.isSome)) fs = saveStep dl fmt assets fs) ∧
    (∀ (dl : DownloadOracle) (fmt : String) (assets : List Asset) (fs : Fs),
      (saveStep dl fmt assets fs).2.1 =
        (assets.filter (downloadOk dl)).map (targetPath fmt) ∧
      (saveStep dl fmt assets fs).2.2.length =
        (assets.filter (fun a => a.url.isSome && !(downloadOk dl a))).length) ∧
    (∀ (dl : DownloadOracle) (fmt : String) (pre post : List Asset) (a : Asset) (fs : Fs),
      downloadOk dl a = false →
      (saveStep dl fmt (pre ++ a :: post) fs).1 = (saveStep dl fmt (pre ++ post) fs).1 ∧
      (saveStep dl fmt (pre ++ a :: post) fs).2.1 = (saveStep dl fmt (pre ++ post) fs).2.1) ∧
    (∀ (api : ImagesApi) (dl : DownloadOracle) (cfg : Config) (assets : List Asset) (fs : Fs),
      (exportStep api cfg assets).1 = .ok () →
      (processAssetsRun api dl cfg assets fs).1 = .ok ()) ∧
    ((saveStep (fun u => if u == "u3" then .error 500 else .ok [7]) "svg"
        [{ id := "1", name := "a1", url := some "u1" },
         { id := "2", name := "a2", url := some "u2" },
         { id := "3", name := "a3", url := some "u3" },
         { id := "4", name := "a4", url := some "u4" },
         { id := "5", name := "a5", url := some "u5" }] []).2.1 =
      ["a1.svg", "a2.svg", "a4.svg", "a5.svg"] ∧
     (saveStep (fun u => if u == "u3" then .error 500 else .ok [7]) "svg"
        [{ id := "1", name := "a1", url := some "u1" },
         { id := "2", name := "a2", url := some "u2" },
         { id := "3", name := "a3", url := some "u3" },
         { id := "4", name := "a4", url := some "u4" },
         { id := "5", name := "a5", url := some "u5" }] []).2.2.length = 1) := by
  refine ⟨saveStep_filter_url, ?_, ?_, ?_, by constructor <;> rfl⟩
  · intro dl fmt assets fs
    exact ⟨saveStep_written dl fmt assets fs, saveStep_warnings_length dl fmt assets fs⟩
  · intro dl fmt pre post a fs h
    have hfil : (pre ++ a :: post).filter (downloadOk dl) =
        (pre ++ post).filter (downloadOk dl) := by
      simp [List.filter_append, List.filter_cons, h]
    constructor
    · rw [saveStep_fs_eq, saveStep_fs_eq, hfil]
    · rw [saveStep_written, saveStep_written, hfil]
  · intro api dl cfg assets fs h
    simp only [processAssetsRun, h]

/-- Witness for C5: the failure-isolation equations and the
always-resolves property evaluated at a concrete failing descriptor. -/
theorem c5_download_failure_isolated_witness :
    ((saveStep (fun _ => .error 500) "svg"
        ([] ++ { id := "3", name := "a3", url := some "u3" } ::
          [{ id := "4", name := "a4", url := some "u4" }]) []).1 =
      (saveStep (fun _ => .error 500) "svg"
        ([] ++ [{ id := "4", name := "a4", url := some "u4" }]) []).1) ∧
    (processAssetsRun (fun _ _ _ => .ok fun _ => none) (fun _ => .error 500) {}
        [{ id := "1", name := "a" }] []).1 = .ok () := by
  constructor
  · exact (c5_download_failure_isolated.2.2.1 (fun _ => .error 500) "svg" []
      [{ id := "4", name := "a4", url := some "u4" }]
      { id := "3", name := "a3", url := some "u3" } [] (by rfl)).1
  · exact c5_download_failure_isolated.2.2.2.1 (fun _ _ _ => .ok fun _ => none)
      (fun _ => .error 500) {} [{ id := "1", name := "a" }] [] (by rfl)

/-- C9: the effective configuration of a `createAssets` call is the
shallow merge of the stored base configuration with the overrides (an
override key shadows the base value, every other key is taken from the
base), and the call leaves the instance state — `this.config` AND
`this.assets` — exactly as it was: the call operates on shallow copies of
the descriptors and never reassigns the instance fields. -/
theorem c9_merge_and_no_instance_mutation :
    (∀ (base : Config) (o : Overrides),
      mergeConfig base o =
        { baseURL := o.baseURL.getD base.baseURL
          format := o.format.getD base.format
          scale := o.scale.getD base.scale
          exportVariants := o.exportVariants.getD base.exportVariants
          batchSize := o.batchSize.getD base.batchSize
          concurrencyLimit := o.concurrencyLimit.getD base.concurrencyLimit
          skipExistingFiles := o.skipExistingFiles.getD base.skipExistingFiles
          figmaPersonalToken := o.figmaPersonalToken.getD base.figmaPersonalToken
          fileId := o.fileId.getD base.fileId
          page := o.page.getD base.page
          frame := o.frame.getD base.frame
          assetsPath := o.assetsPath.getD base.assetsPath }) ∧
    (∀ (api : ImagesApi) (dl : DownloadOracle) (transform : List Asset → List Asset)
        (o : Overrides) (s : ExporterState) (fs : Fs),
      (createAssetsRun api dl transform o s fs).state.config = s.config ∧
      (createAssetsRun api dl transform o s fs).state.assets = s.assets) :=
  ⟨fun _ _ => rfl, fun _ _ _ _ _ _ => ⟨rfl, rfl⟩⟩

theorem length_filter_add_length_filter_not (p : α → Bool) :
    ∀ l : List α, (l.filter p).length + (l.filter (fun a => !(p a))).length = l.length
  | [] => rfl
  | a :: l => by
    have ih := length_filter_add_length_filter_not p l
    cases hp : p a <;> simp [List.filter_cons, hp] <;> omega

/-- The descriptor list that survives the `skipExistingFiles` filter of a
`createAssets` call with the identity transform. -/
def keptAssets (o : Overrides) (s : ExporterState) (fs : Fs) : List Asset :=
  (s.assets.map fun a => { a with assetsPath := some (mergeConfig s.config o).assetsPath }).filter
    fun a => !((fs.map (·.1)).contains (targetPath (mergeConfig s.config o).format a))

theorem effectiveAssets_skip (o : Overrides) (s : ExporterState) (fs : Fs)
    (hskip : (mergeConfig s.config o).skipExistingFiles = true) :
    effectiveAssets id o s fs = keptAssets o s fs := by
  simp only [effectiveAssets, keptAssets, hskip, if_true, id_eq, skipExistingFilter]

theorem keptAssets_mem_iff (o : Overrides) (s : ExporterState) (fs : Fs) (a : Asset) :
    a ∈ keptAssets o s fs ↔
      a ∈ (s.assets.map fun b => { b with assetsPath := some (mergeConfig s.config o).assetsPath }) ∧
      targetPath (mergeConfig s.config o).format a ∉ fs.map (·.1) := by
  simp [keptAssets, List.mem_filter, List.elem_iff]

theorem processAssetsRun_const (urlOf : String → Option String) (dl : DownloadOracle)
    (cfg : Config) (hbs : cfg.batchSize ≠ 0) (assets : List Asset) (fs : Fs) :
    processAssetsRun (fun _ _ _ => .ok urlOf) dl cfg assets fs =
      (.ok (), (saveStep dl cfg.format (assets.map fun a => { a with url := urlOf a.id }) fs).1,
        (saveStep dl cfg.format (assets.map fun a => { a with url := urlOf a.id }) fs).2.1,
        (saveStep dl cfg.format (assets.map fun a => { a with url := urlOf a.id }) fs).2.2,
        (chunksOf cfg.batchSize assets).map (·.map (·.id)),
        assets.map fun a => { a with url := urlOf a.id }) := by
  simp only [processAssetsRun, exportStep_const urlOf cfg hbs assets]

theorem createAssetsRun_const_skip (urlOf : String → Option String) (dl : DownloadOracle)
    (o : Overrides) (s : ExporterState) (fs : Fs)
    (hskip : (mergeConfig s.config o).skipExistingFiles = true)
    (hbs : (mergeConfig s.config o).batchSize ≠ 0) :
    (createAssetsRun (fun _ _ _ => .ok urlOf) dl id o s fs).fs =
      (saveStep dl (mergeConfig s.config o).format
        ((keptAssets o s fs).map fun a => { a with url := urlOf a.id }) fs).1 ∧
    (createAssetsRun (fun _ _ _ => .ok urlOf) dl id o s fs).written =
      (saveStep dl (mergeConfig s.config o).format
        ((keptAssets o s fs).map fun a => { a with url := urlOf a.id }) fs).2.1 := by
  unfold createAssetsRun
  dsimp only
  rw [effectiveAssets_skip o s fs hskip,
    processAssetsRun_const urlOf dl (mergeConfig s.config o) hbs (keptAssets o s fs) fs]
  exact ⟨rfl, rfl⟩

/-- C6: with `skipExistingFiles`, exactly the descriptors whose target
relative path `name.format` is already among the walked relative paths are
dropped (insertion order preserved), the skipped count is reported (see
the concrete run, whose only warning is `Skipped: 1` and which writes
nothing); and a second run over unchanged remote content (same per-id URL
map, same download behaviour) writes no file and leaves the filesystem —
hence every existing file's bytes — exactly as the first run left it. -/
theorem c6_skip_existing_idempotent :
    (∀ (existing : List String) (fmt : String) (assets : List Asset),
      (skipExistingFilter existing fmt assets).1 =
        assets.filter (fun a => !(existing.contains (targetPath fmt a))) ∧
      (skipExistingFilter existing fmt assets).2 +
        (skipExistingFilter existing fmt assets).1.length = assets.length) ∧
    ((createAssetsRun (fun _ _ _ => .ok fun _ => none) (fun _ => .error 500) id {}
        { config := { skipExistingFiles := true }, assets := [{ id := "1", name := "a" }] }
        [("a.svg", [1])]).warnings = ["Skipped: 1"] ∧
      (createAssetsRun (fun _ _ _ => .ok fun _ => none) (fun _ => .error 500) id {}
        { config := { skipExistingFiles := true }, assets := [{ id := "1", name := "a" }] }
        [("a.svg", [1])]).written = [] ∧
      (createAssetsRun (fun _ _ _ => .ok fun _ => none) (fun _ => .error 500) id {}
        { config := { skipExistingFiles := true }, assets := [{ id := "1", name := "a" }] }
        [("a.svg", [1])]).fs = [("a.svg", [1])]) ∧
    (∀ (urlOf : String → Option String) (dl : DownloadOracle) (o : Overrides)
        (s : ExporterState) (fs : Fs),
      (mergeConfig s.config o).skipExistingFiles = true →
      (mergeConfig s.config o).batchSize ≠ 0 →
      (createAssetsRun (fun _ _ _ => .ok urlOf) dl id o
        (createAssetsRun (fun _ _ _ => .ok urlOf) dl id o s fs).state
        (createAssetsRun (fun _ _ _ => .ok urlOf) dl id o s fs).fs).written = [] ∧
      (createAssetsRun (fun _ _ _ => .ok urlOf) dl id o
        (createAssetsRun (fun _ _ _ => .ok urlOf) dl id o s fs).state
        (createAssetsRun (fun _ _ _ => .ok urlOf) dl id o s fs).fs).fs =
        (createAssetsRun (fun _ _ _ => .ok urlOf) dl id o s fs).fs) := by
  refine ⟨?_, ⟨rfl, rfl, rfl⟩, ?_⟩
  · intro existing fmt assets
    exact ⟨rfl, length_filter_add_length_filter_not
      (fun a => existing.contains (targetPath fmt a)) assets⟩
  · intro urlOf dl o s fs hskip hbs
    obtain ⟨hfs1, hw1⟩ := createAssetsRun_const_skip urlOf dl o s fs hskip hbs
    have hst : (createAssetsRun (fun _ _ _ => .ok urlOf) dl id o s fs).state = s := rfl
    rw [hst, hfs1]
    set F1 := (saveStep dl (mergeConfig s.config o).format
      ((keptAssets o s fs).map fun a => { a with url := urlOf a.id }) fs).1 with hF1
    obtain ⟨hfs2, hw2⟩ := createAssetsRun_const_skip urlOf dl o s F1 hskip hbs
    rw [hw2, hfs2]
    have hkey : (keptAssets o s F1).filter
        (downloadOk dl ∘ fun b => { b with url := urlOf b.id }) = [] := by
      rw [List.filter_eq_nil_iff]
      intro a ha
      obtain ⟨hA0, hnot2⟩ := (keptAssets_mem_iff o s F1 a).mp ha
      have hnot1 : targetPath (mergeConfig s.config o).format a ∉ fs.map (·.1) := by
        intro hm
        exact hnot2 (by rw [hF1]; exact saveStep_paths_mono dl _ _ fs hm)
      have hkept1 : a ∈ keptAssets o s fs := (keptAssets_mem_iff o s fs a).mpr ⟨hA0, hnot1⟩
      intro hq
      have hmem : ({ a with url := urlOf a.id } : Asset) ∈
          (keptAssets o s fs).map (fun b => { b with url := urlOf b.id }) :=
        List.mem_map.mpr ⟨a, hkept1, rfl⟩
      have hwmem : targetPath (mergeConfig s.config o).format
          ({ a with url := urlOf a.id } : Asset) ∈
          (saveStep dl (mergeConfig s.config o).format
            ((keptAssets o s fs).map fun b => { b with url := urlOf b.id }) fs).2.1 := by
        rw [saveStep_written]
        exact List.mem_map.mpr ⟨_, List.mem_filter.mpr ⟨hmem, hq⟩, rfl⟩
      have hfsmem := saveStep_written_on_fs dl (mergeConfig s.config o).format
        ((keptAssets o s fs).map fun b => { b with url := urlOf b.id }) fs hwmem
      rw [← hF1] at hfsmem
      exact hnot2 hfsmem
    have hfilmap : ((keptAssets o s F1).map fun b => { b with url := urlOf b.id }).filter
        (downloadOk dl) = [] := by
      rw [List.filter_map, hkey]
      rfl
    constructor
    · rw [saveStep_written, hfilmap]
      rfl
    · rw [saveStep_fs_eq, hfilmap]
      rfl

/-- Witness for C6: the idempotence equations evaluated at a concrete
one-asset exporter over an initially empty directory. -/
theorem c6_skip_existing_idempotent_witness :
    (createAssetsRun (fun _ _ _ => .ok fun _ => some "u") (fun _ => .ok [9]) id {}
      (createAssetsRun (fun _ _ _ => .ok fun _ => some "u") (fun _ => .ok [9]) id {}
        { config := { skipExistingFiles := true }, assets := [{ id := "1", name := "a" }] }
        []).state
      (createAssetsRun (fun _ _ _ => .ok fun _ => some "u") (fun _ => .ok [9]) id {}
        { config := { skipExistingFiles := true }, assets := [{ id := "1", name := "a" }] }
        []).fs).written = [] ∧
    (createAssetsRun (fun _ _ _ => .ok fun _ => some "u") (fun _ => .ok [9]) id {}
      (createAssetsRun (fun _ _ _ => .ok fun _ => some "u") (fun _ => .ok [9]) id {}
        { config := { skipExistingFiles := true }, assets := [{ id := "1", name := "a" }] }
        []).state
      (createAssetsRun (fun _ _ _ => .ok fun _ => some "u") (fun _ => .ok [9]) id {}
        { config := { skipExistingFiles := true }, assets := [{ id := "1", name := "a" }] }
        []).fs).fs =
      (createAssetsRun (fun _ _ _ => .ok fun _ => some "u") (fun _ => .ok [9]) id {}
        { config := { skipExistingFiles := true }, assets := [{ id := "1", name := "a" }] }
        []).fs :=
  c6_skip_existing_idempotent.2.2 (fun _ => some "u") (fun _ => .ok [9]) {}
    { config := { skipExistingFiles := true }, assets := [{ id := "1", name := "a" }] }
    [] rfl (by decide)
